import Mathlib

/-!
Verification of the git-backup tool: a shallow embedding of its data model,
source identifiers (regex URL grammars), provider pagination loops, the
mirror synchronizer and the prune/dry-run orchestration, with theorems
settling the specification claims.
-/

/-- Repository descriptor, from src/services/service.rs. -/
structure Repository where
  git_url : String
  name : String
deriving Repr, DecidableEq

/-- From src/main.rs: the local mirror folder derived from a repository name. -/
def repo_name_to_folder (repo_name : String) : String := repo_name ++ ".git"

/-! ## A small backtracking regex engine

The providers' URL grammars are given as regexes in the source. Every
quantified subterm in those regexes is either a literal or a character
class, so the engine only needs literals, single-character classes,
one-or-more over a class (greedy or lazy), sequencing, alternation,
greedy option, and numbered capture groups. Matching is anchored at both
ends, as all the source regexes are (`^...$`). -/

/-- Character classes appearing in the source regexes. -/
inductive CharClass where
  | any
  | noneOf (cs : List Char)
deriving Repr

def CharClass.test : CharClass → Char → Bool
  | .any, _ => true
  | .noneOf cs, c => !(cs.contains c)

/-- Regex abstract syntax (only the constructs used by the source regexes). -/
inductive RE where
  | lit (s : List Char)
  | cls (cc : CharClass)
  | clsPlus (lazy : Bool) (cc : CharClass)
  | seq (a b : RE)
  | alt (a b : RE)
  | opt (a : RE)
  | group (i : Nat) (a : RE)

/-- Capture list: group index paired with the consumed characters. -/
def Captures := List (Nat × List Char)

/-- Return the first success among candidate consumption lengths. -/
def firstSome {α : Type} : List Nat → (Nat → Option α) → Option α
  | [], _ => none
  | k :: rest, f =>
    match f k with
    | some r => some r
    | none => firstSome rest f

/-- Backtracking matcher in continuation-passing style. Greedy operators
try the longest consumption first, lazy ones the shortest. -/
def reMatch {α : Type} : RE → List Char → Captures → (List Char → Captures → Option α) → Option α
  | .lit s, cs, caps, k =>
    if s.isPrefixOf cs then k (cs.drop s.length) caps else none
  | .cls cc, cs, caps, k =>
    match cs with
    | [] => none
    | c :: rest => if cc.test c then k rest caps else none
  | .clsPlus lz cc, cs, caps, k =>
    let m := (cs.takeWhile cc.test).length
    let ks := if lz then (List.range m).map (· + 1) else ((List.range m).map (· + 1)).reverse
    firstSome ks (fun j => k (cs.drop j) caps)
  | .seq a b, cs, caps, k =>
    reMatch a cs caps (fun cs2 caps2 => reMatch b cs2 caps2 k)
  | .alt a b, cs, caps, k =>
    match reMatch a cs caps k with
    | some r => some r
    | none => reMatch b cs caps k
  | .opt a, cs, caps, k =>
    match reMatch a cs caps k with
    | some r => some r
    | none => k cs caps
  | .group i a, cs, caps, k =>
    reMatch a cs caps (fun cs2 caps2 => k cs2 ((i, cs.take (cs.length - cs2.length)) :: caps2))

/-- Anchored full match returning the captures of the successful path. -/
def reCaptures (r : RE) (s : String) : Option Captures :=
  reMatch r s.toList [] (fun rest caps => if rest.isEmpty then some caps else none)

/-- Look up capture group `i` (each group binds at most once per path). -/
def capGet (caps : Captures) (i : Nat) : Option String :=
  (List.find? (fun p => p.fst == i) caps).map (fun p => String.mk p.snd)

def reLit (s : String) : RE := .lit s.toList

def reSeqs : List RE → RE
  | [] => .lit []
  | [r] => r
  | r :: rest => .seq r (reSeqs rest)

/-! ## Source identifiers

Each provider tries its HTTP, SSH-colon and bare-`user@host` regexes in
order; capture 1 is the owner, capture 2 (when bound) the repository. -/

/-- Try the regexes in order, returning the first match's captures. -/
def reFirstMatch : List RE → String → Option Captures
  | [], _ => none
  | r :: rest, s =>
    match reCaptures r s with
    | some caps => some caps
    | none => reFirstMatch rest s

/-- Shared shape of `Github::new` / `GitLab::new` / `Bitbucket::new`:
first capture is the owner (always bound on a match), the optional second
capture is the single repository. -/
def identifyFrom (res : List RE) (url : String) : Option (String × Option String) :=
  match reFirstMatch res url with
  | none => none
  | some caps =>
    match capGet caps 1 with
    | none => none
    | some owner => some (owner, capGet caps 2)

/-- `^(?:http(?:s)?://)?(?:www\.)?github(?:\.com)?/([^/]+)(?:/([^/]+?))?(?:/|\.git)?$` -/
def githubHttpRe : RE := reSeqs
  [ .opt (reSeqs [reLit "http", .opt (reLit "s"), reLit "://"]),
    .opt (reLit "www."),
    reLit "github",
    .opt (reLit ".com"),
    reLit "/",
    .group 1 (.clsPlus false (.noneOf ['/'])),
    .opt (.seq (reLit "/") (.group 2 (.clsPlus true (.noneOf ['/'])))),
    .opt (.alt (reLit "/") (reLit ".git")) ]

/-- `^(?:git@)?github(?:\.com)?:([^/.]+)(?:/(.+?)(?:\.git)?)?$` -/
def githubSshRe : RE := reSeqs
  [ .opt (reLit "git@"),
    reLit "github",
    .opt (reLit ".com"),
    reLit ":",
    .group 1 (.clsPlus false (.noneOf ['/', '.'])),
    .opt (reSeqs [reLit "/", .group 2 (.clsPlus true .any), .opt (reLit ".git")]) ]

/-- `^([^@]+)@github(?:\.com)?(?:(?:/|:)(.+?)(?:\.git)?)?$` -/
def githubBasicRe : RE := reSeqs
  [ .group 1 (.clsPlus false (.noneOf ['@'])),
    reLit "@github",
    .opt (reLit ".com"),
    .opt (reSeqs [.alt (reLit "/") (reLit ":"), .group 2 (.clsPlus true .any), .opt (reLit ".git")]) ]

/-- `Github::new` restricted to its URL-parsing behaviour. -/
def Github.identify (url : String) : Option (String × Option String) :=
  identifyFrom [githubHttpRe, githubSshRe, githubBasicRe] url

/-- `^(?:http(?:s)?://)?(?:www\.)?gitlab(?:\.org)?/([^/]+)(?:/([^/]+?))?(?:/|\.git)?$` -/
def gitlabHttpRe : RE := reSeqs
  [ .opt (reSeqs [reLit "http", .opt (reLit "s"), reLit "://"]),
    .opt (reLit "www."),
    reLit "gitlab",
    .opt (reLit ".org"),
    reLit "/",
    .group 1 (.clsPlus false (.noneOf ['/'])),
    .opt (.seq (reLit "/") (.group 2 (.clsPlus true (.noneOf ['/'])))),
    .opt (.alt (reLit "/") (reLit ".git")) ]

/-- `^(?:git@)?gitlab(?:\.org)?:([^/.]+)(?:/(.+?)(?:\.git)?)?$` -/
def gitlabSshRe : RE := reSeqs
  [ .opt (reLit "git@"),
    reLit "gitlab",
    .opt (reLit ".org"),
    reLit ":",
    .group 1 (.clsPlus false (.noneOf ['/', '.'])),
    .opt (reSeqs [reLit "/", .group 2 (.clsPlus true .any), .opt (reLit ".git")]) ]

/-- `^([^@]+)@gitlab(?:\.org)?(?:(?:/|:)(.+?)(?:\.git)?)?$` -/
def gitlabBasicRe : RE := reSeqs
  [ .group 1 (.clsPlus false (.noneOf ['@'])),
    reLit "@gitlab",
    .opt (reLit ".org"),
    .opt (reSeqs [.alt (reLit "/") (reLit ":"), .group 2 (.clsPlus true .any), .opt (reLit ".git")]) ]

/-- `GitLab::new` restricted to its URL-parsing behaviour. -/
def GitLab.identify (url : String) : Option (String × Option String) :=
  identifyFrom [gitlabHttpRe, gitlabSshRe, gitlabBasicRe] url

/-- `^(?:http(?:s)?://)?(?:www\.)?bitbucket(?:\.org)?/([^/]+)(?:/([^/]+?))?(?:/|\.git)?$` -/
def bitbucketHttpRe : RE := reSeqs
  [ .opt (reSeqs [reLit "http", .opt (reLit "s"), reLit "://"]),
    .opt (reLit "www."),
    reLit "bitbucket",
    .opt (reLit ".org"),
    reLit "/",
    .group 1 (.clsPlus false (.noneOf ['/'])),
    .opt (.seq (reLit "/") (.group 2 (.clsPlus true (.noneOf ['/'])))),
    .opt (.alt (reLit "/") (reLit ".git")) ]

/-- `^(?:git@)?bitbucket(?:\.org)?:([^/.]+)(?:/(.+?)(?:\.git)?)?$` -/
def bitbucketSshRe : RE := reSeqs
  [ .opt (reLit "git@"),
    reLit "bitbucket",
    .opt (reLit ".org"),
    reLit ":",
    .group 1 (.clsPlus false (.noneOf ['/', '.'])),
    .opt (reSeqs [reLit "/", .group 2 (.clsPlus true .any), .opt (reLit ".git")]) ]

/-- `^([^@]+)@bitbucket(?:\.org)?(?:(?:/|:)(.+?)(?:\.git)?)?$` -/
def bitbucketBasicRe : RE := reSeqs
  [ .group 1 (.clsPlus false (.noneOf ['@'])),
    reLit "@bitbucket",
    .opt (reLit ".org"),
    .opt (reSeqs [.alt (reLit "/") (reLit ":"), .group 2 (.clsPlus true .any), .opt (reLit ".git")]) ]

/-- `Bitbucket::new` restricted to its URL-parsing behaviour. -/
def Bitbucket.identify (url : String) : Option (String × Option String) :=
  identifyFrom [bitbucketHttpRe, bitbucketSshRe, bitbucketBasicRe] url

/-- `^(?:http(?:s)?://)?gist(?:s)?.github(?:\.com)?/([^/]+)(?:/)?$`
(the dot between `gist(?:s)?` and `github` is an unescaped any-character). -/
def gistsHttpRe : RE := reSeqs
  [ .opt (reSeqs [reLit "http", .opt (reLit "s"), reLit "://"]),
    reLit "gist",
    .opt (reLit "s"),
    .cls .any,
    reLit "github",
    .opt (reLit ".com"),
    reLit "/",
    .group 1 (.clsPlus false (.noneOf ['/'])),
    .opt (reLit "/") ]

/-- `^(?:git@)?gist(?:s)?.github(?:\.com)?:([^/.]+)(?:/)?$` -/
def gistsSshRe : RE := reSeqs
  [ .opt (reLit "git@"),
    reLit "gist",
    .opt (reLit "s"),
    .cls .any,
    reLit "github",
    .opt (reLit ".com"),
    reLit ":",
    .group 1 (.clsPlus false (.noneOf ['/', '.'])),
    .opt (reLit "/") ]

/-- `^([^@]+)@gist(?:s)?.github(?:\.com)?$` -/
def gistsBasicRe : RE := reSeqs
  [ .group 1 (.clsPlus false (.noneOf ['@'])),
    reLit "@gist",
    .opt (reLit "s"),
    .cls .any,
    reLit "github",
    .opt (reLit ".com") ]

/-- `GitHubGists::new` restricted to its URL-parsing behaviour (only the
owner is captured; gists never carry a repository segment). -/
def GitHubGists.identify (url : String) : Option String :=
  match identifyFrom [gistsHttpRe, gistsSshRe, gistsBasicRe] url with
  | none => none
  | some (owner, _) => some owner

/-! ## Cursor pagination (GitHub repositories and GitHub gists)

`Github::list_repositories` and `GitHubGists::list_repositories`
repeatedly POST a GraphQL query carrying the current cursor (initially
`None`), append the decoded descriptors of the returned page, then read
`pageInfo.endCursor` from the response: a string value becomes the next
cursor, anything else (absent/null) ends the loop. We model the network
environment as the list of successful, well-formed pages the provider
answers with, in order. -/

/-- One decoded, well-formed successful response page. -/
structure Page where
  items : List Repository
  endCursor : Option String
deriving Repr, DecidableEq

/-- The pagination loop's accumulation: consume pages in order, stopping
after the first page whose `endCursor` is absent. -/
def collectPages : List Page → List Repository
  | [] => []
  | p :: rest =>
    p.items ++ (match p.endCursor with
      | some _ => collectPages rest
      | none => [])

/-- The cursors carried by the requests the loop issues, starting from
`cur` (initially `none`), when the environment answers with `pages`. -/
def cursorsSentFrom (cur : Option String) : List Page → List (Option String)
  | [] => [cur]
  | p :: rest =>
    cur :: (match p.endCursor with
      | some c => cursorsSentFrom (some c) rest
      | none => [])

/-- `Github::list_repositories` (listing path) as a function of the
response pages. -/
def githubListRepositories (pages : List Page) : List Repository :=
  collectPages pages

/-- Association-list counterpart of the `HashMap<String,usize>` used by
the gist name-disambiguation pass: the count recorded for `k` (0 if
none). Updates are pushed at the front, so the first hit is current. -/
def lookupCount (m : List (String × Nat)) (k : String) : Nat :=
  match List.find? (fun p => p.fst == k) m with
  | some p => p.snd
  | none => 0

def setCount (m : List (String × Nat)) (k : String) (n : Nat) : List (String × Nat) :=
  (k, n) :: m

/-- `format!("\x7b\x7d \x7b\x7d", repo.name, n)`: the renamed duplicate. -/
def renameWith (r : Repository) (n : Nat) : Repository :=
  { r with name := r.name ++ " " ++ toString n }

/-- The gist name-disambiguation pass from `GitHubGists::list_repositories`:
walk the repositories in order, count occurrences of each original name,
and rename the 2nd and later occurrences by appending the count. -/
def disambigGo : List (String × Nat) → List Repository → List Repository
  | _, [] => []
  | m, r :: rs =>
    let n := lookupCount m r.name + 1
    let r2 := if n = 1 then r else renameWith r n
    r2 :: disambigGo (setCount m r.name n) rs

def disambiguate (rs : List Repository) : List Repository :=
  disambigGo [] rs

/-- `GitHubGists::list_repositories` as a function of the response pages:
the pagination loop followed by the name-disambiguation pass. -/
def gistsListRepositories (pages : List Page) : List Repository :=
  disambiguate (collectPages pages)

/-- Plain concatenation of the pages' items, the spec's reference value
for an exact pagination result. -/
def concatItems (ps : List Page) : List Repository :=
  ps.foldr (fun p acc => p.items ++ acc) []

/-! ## Provider status-error handling

Each client checks `res.status().is_success()` and, on a non-success
status, builds an error. GitLab, Bitbucket and GitHub-Gists match on the
numeric status and special-case 401 with a remediation hint; the GitHub
repositories client has no such match and always builds the one generic
message. -/

/-- The shape of the error a client builds from a non-success status:
either the fixed 401 remediation-hint message, or the generic message
embedding the status code. -/
inductive ProviderError where
  | authHint (hint : String)
  | generic (code : Nat)
deriving Repr, DecidableEq

def ProviderError.isAuth : ProviderError → Bool
  | .authHint _ => true
  | .generic _ => false

/-- `reqwest::StatusCode::is_success`: the 2xx range. -/
def isSuccessStatus (c : Nat) : Bool := 200 ≤ c && c < 300

/-- github.rs line 98: one generic message for every non-success code. -/
def githubStatusError (c : Nat) : ProviderError :=
  .generic c

/-- gitlab.rs lines 79-82. -/
def gitlabStatusError (c : Nat) : ProviderError :=
  if c == 401 then
    .authHint "Not authorized: is the app password that you provided for GitLab valid?"
  else .generic c

/-- bitbucket.rs lines 88-91. -/
def bitbucketStatusError (c : Nat) : ProviderError :=
  if c == 401 then
    .authHint "Not authorized: is the app password that you provided for Bitbucket valid?"
  else .generic c

/-- github_gists.rs lines 76-79. -/
def gistsStatusError (c : Nat) : ProviderError :=
  if c == 401 then
    .authHint "Not authorized: is the personal access token that you provided for GitHub (Gists) valid?"
  else .generic c

/-! ## The Bitbucket listing loop

In bitbucket.rs the listing path builds one request URL, then enters
`loop { ... }` whose entire body is: send the request to that same URL,
fail on a non-success status — every other statement (decoding the body,
accumulating repositories, following a next-page link, breaking) is
commented out. We model the environment as the status of each request in
order, and run the loop with explicit fuel. -/

/-- Outcome of running the Bitbucket listing loop for a bounded number of
iterations. `.done` would be a normal return of the accumulated list. -/
inductive BbOutcome where
  | done (repos : List Repository)
  | failed (e : ProviderError)
  | outOfFuel
deriving Repr, DecidableEq

/-- The loop of `Bitbucket::list_repositories` (lines 77-141): request
`i` is answered with status `statuses i`; a success iterates again (with
nothing accumulated and the URL unchanged), a non-success fails. No
branch ever produces `.done`. -/
def bitbucketLoop (statuses : Nat → Nat) : Nat → Nat → BbOutcome
  | _, 0 => .outOfFuel
  | i, fuel + 1 =>
    if isSuccessStatus (statuses i) then bitbucketLoop statuses (i + 1) fuel
    else .failed (bitbucketStatusError (statuses i))

/-! ## Mirror synchronizer (git.rs)

`sync_repository` creates the destination folder (with parents), checks
for the `HEAD` marker file, and hands exactly one command string to
`sh -c`, with the credentials attached only as the `GIT_USER` /
`GIT_PASSWORD` environment variables of that one subprocess. -/

/-- A shell invocation: the string given to `sh -c`, the extra process
environment, and the working directory. -/
structure ShellCmd where
  script : String
  env : List (String × String)
  cwd : String
deriving Repr, DecidableEq

/-- git.rs `git_clone_cmd`: the clone command string, a function of the
repository URL only. -/
def git_clone_cmd (repo_url : String) : String :=
  "\n        git clone \\\n            --bare \\\n            --config credential.helper=\x27!f() \x7b sleep 1; echo \"username=$\x7bGIT_USER\x7d\"; echo \"password=$\x7bGIT_PASSWORD\x7d\"; \x7d; f\x27 \\\n    "
    ++ repo_url ++ " ."

/-- git.rs `git_fetch_cmd`: the fixed fetch command string. -/
def git_fetch_cmd : String :=
  "git fetch origin \x27+*:*\x27 --prune"

/-- Arguments of `git::sync_repository` (git.rs `Opts`). -/
structure GitOpts where
  repo_url : String
  username : String
  password : String
  destination : String
deriving Repr, DecidableEq

/-- The path of the bare-repository marker file checked by
`sync_repository`: `destination` joined with `HEAD`. -/
def headPath (destination : String) : String := destination ++ "/" ++ "HEAD"

/-- Filesystem effects of one sync, in order. -/
inductive SyncAction where
  | createDirAll (path : String)
  | runShell (cmd : ShellCmd)
deriving Repr, DecidableEq

/-- `git::sync_repository` as the ordered list of filesystem/process
actions it performs; `is_file` is the state of the filesystem after the
`create_dir_all` call (the `dest_head.is_file()` check). -/
def sync_repository (o : GitOpts) (is_file : String → Bool) : List SyncAction :=
  let is_repo := is_file (headPath o.destination)
  [ .createDirAll o.destination,
    .runShell
      { script := if is_repo then git_fetch_cmd else git_clone_cmd o.repo_url,
        env := [("GIT_USER", o.username), ("GIT_PASSWORD", o.password)],
        cwd := o.destination } ]

/-- The command strings among a list of sync actions. -/
def scriptsOf (as : List SyncAction) : List String :=
  as.filterMap (fun a =>
    match a with
    | .runShell c => some c.script
    | _ => none)

/-- The environments among a list of sync actions. -/
def envsOf (as : List SyncAction) : List (List (String × String)) :=
  as.filterMap (fun a =>
    match a with
    | .runShell c => some c.env
    | _ => none)

/-! ## Backup orchestrator (main.rs)

`run()` syncs each listed repository (in parallel; we record the
decision log in repository-list order and the filesystem mutations as a
set-like list, since the fan-out interleaving is nondeterministic) and
then, when pruning is requested, walks the direct children of the
destination directory. -/

/-- One result of the `read_dir` iterator over the destination directory:
whether the entry could be read at all, whether its path is a directory,
and its file name when it is valid UTF-8. -/
structure DirEntry where
  readable : Bool
  is_dir : Bool
  utf8_name : Option String
deriving Repr, DecidableEq

/-- The folder names the prune pass keeps: one per listed repository. -/
def keepFolders (repos : List Repository) : List String :=
  repos.map (fun r => repo_name_to_folder r.name)

/-- One iteration of the prune loop in `run()` (main.rs lines 103-135):
unreadable entries, non-directories, non-UTF-8 names, names without the
`.git` suffix and names of currently listed repositories are all skipped
with `continue`; anything else is removed. -/
def pruneStep (keep : List String) (e : DirEntry) : Option String :=
  if e.readable = false then none
  else if e.is_dir = false then none
  else match e.utf8_name with
    | none => none
    | some nm =>
      if nm.endsWith ".git" = false then none
      else if keep.contains nm then none
      else some nm

/-- The prune pass as the list of folder names it decides to remove. -/
def pruneTargets (keep : List String) (entries : List DirEntry) : List String :=
  entries.filterMap (pruneStep keep)

/-- Filesystem mutations a run can perform. -/
inductive Mutation where
  | createDirAll (path : String)
  | gitRun (cmd : ShellCmd)
  | removeDirAll (name : String)
deriving Repr, DecidableEq

/-- The decisions a run reports (its log lines): `Syncing <name>` per
listed repository and `Pruning <folder>` per prune target. -/
inductive LogLine where
  | syncing (name : String)
  | pruning (name : String)
deriving Repr, DecidableEq

/-- Lift the actions of one `sync_repository` call into run mutations. -/
def syncMutations (o : GitOpts) (is_file : String → Bool) : List Mutation :=
  (sync_repository o is_file).map (fun a =>
    match a with
    | .createDirAll p => .createDirAll p
    | .runShell c => .gitRun c)

def concatMap {α β : Type} (f : α → List β) : List α → List β
  | [] => []
  | a :: l => f a ++ concatMap f l

/-- The sync phase of `run()`: every repository is logged as `Syncing`;
when `dry_run` is not set, `git::sync_repository` is invoked on the
destination joined with the repository's mirror folder name. -/
def syncPhase (dry_run : Bool) (dest username token : String)
    (is_file : String → Bool) (repos : List Repository) :
    List Mutation × List LogLine :=
  ( if dry_run then []
    else concatMap (fun r =>
      syncMutations
        { repo_url := r.git_url, username := username, password := token,
          destination := dest ++ "/" ++ repo_name_to_folder r.name }
        is_file) repos,
    repos.map (fun r => .syncing r.name) )

/-- The prune phase of `run()`: every prune target is logged as
`Pruning`; the recursive removal happens only when `dry_run` is not
set. -/
def prunePhase (dry_run : Bool) (keep : List String) (entries : List DirEntry) :
    List Mutation × List LogLine :=
  ( if dry_run then []
    else (pruneTargets keep entries).map (fun nm => .removeDirAll nm),
    (pruneTargets keep entries).map (fun nm => .pruning nm) )

/-- The whole backup phase of `run()` after enumeration: sync fan-out
followed by the optional prune pass. `entries` is the `read_dir` view of
the destination directory. -/
def runBackup (dry_run prune : Bool) (dest username token : String)
    (is_file : String → Bool) (repos : List Repository)
    (entries : List DirEntry) : List Mutation × List LogLine :=
  let s := syncPhase dry_run dest username token is_file repos
  let p := if prune then prunePhase dry_run (keepFolders repos) entries
           else ([], [])
  (s.1 ++ p.1, s.2 ++ p.2)

/-! ## Run prologue and process exit status (main.rs)

`run()` first checks the installed Git version, then resolves the token
(flag, else the GIT_TOKEN environment variable), then dispatches the URL
over the providers in registration order (Github, Bitbucket, GitLab).
`main()` is `if let Err(e) = run() { log_error!("{}", e); }`: the error
is printed and `main` returns normally, so the process exit status is
the same in both cases. -/

/-- git.rs `Version` with its derived lexicographic order. -/
structure GitVersion where
  major : Nat
  minor : Nat
  patch : Nat
deriving Repr, DecidableEq

/-- Derived `PartialOrd`/`Ord` comparison on (major, minor, patch). -/
def GitVersion.lt (a b : GitVersion) : Bool :=
  a.major < b.major
  || (a.major == b.major && (a.minor < b.minor
      || (a.minor == b.minor && a.patch < b.patch)))

/-- The fatal configuration errors of `run()`. -/
inductive RunError where
  | gitNotInstalled
  | gitTooOld
  | missingToken
  | sourceNotRecognised (url : String)
deriving Repr, DecidableEq

/-- main.rs `pick_service` restricted to recognition: the providers are
tried in order Github, Bitbucket, GitLab. -/
def sourceRecognised (url : String) : Bool :=
  (Github.identify url).isSome
  || (Bitbucket.identify url).isSome
  || (GitLab.identify url).isSome

/-- The configuration prologue of `run()` (main.rs lines 45-66): on
success it proceeds with the resolved token. -/
def runPrologue (git_version : Option GitVersion)
    (token_flag env_token : Option String) (url : String) :
    Except RunError String :=
  match git_version with
  | none => .error .gitNotInstalled
  | some v =>
    if GitVersion.lt v ⟨2, 0, 0⟩ then .error .gitTooOld
    else
      match token_flag.orElse (fun _ => env_token) with
      | none => .error .missingToken
      | some tok =>
        if sourceRecognised url then .ok tok
        else .error (.sourceNotRecognised url)

/-- main.rs `main()`: the run's outcome only selects what is logged;
`main` returns `()` in both branches, so the exit status is 0 either
way. -/
def mainExitCode (outcome : Except RunError Unit) : Nat :=
  match outcome with
  | .ok _ => 0
  | .error _ => 0

/-! ## Claim theorems -/

/-- C1: the claim says the process exits with a non-zero status when the
source is not recognised, no token is available, or Git is missing/too
old. `run()` does produce those errors, but `main()` only logs the error
and returns `()`, so the process exit status is 0 in every one of those
failure cases, exactly as on success. This theorem evaluates the code at
each failing configuration. -/
theorem c1_exit_status_is_zero_even_on_failure :
    runPrologue (some ⟨2, 20, 0⟩) none none "github.com/jsdw"
      = .error .missingToken
    ∧ runPrologue none (some "tok") none "github.com/jsdw"
      = .error .gitNotInstalled
    ∧ runPrologue (some ⟨1, 9, 5⟩) (some "tok") none "github.com/jsdw"
      = .error .gitTooOld
    ∧ runPrologue (some ⟨2, 20, 0⟩) (some "tok") none "not a repo url!!"
      = .error (.sourceNotRecognised "not a repo url!!")
    ∧ mainExitCode (.error .missingToken) = 0
    ∧ mainExitCode (.error .gitNotInstalled) = 0
    ∧ mainExitCode (.error .gitTooOld) = 0
    ∧ mainExitCode (.error (.sourceNotRecognised "not a repo url!!")) = 0
    ∧ mainExitCode (.ok ()) = 0 :=
  ⟨rfl, rfl, rfl, rfl, rfl, rfl, rfl, rfl, rfl⟩

/-- C2: on a run of well-formed successful responses the Bitbucket
listing loop never terminates: however much fuel it is given, it is
still iterating — it never returns an accumulated repository list
(`.done`), because its whole body besides the status check is commented
out in the source. -/
theorem c2_bitbucket_loop_never_returns (statuses : Nat → Nat)
    (h : ∀ i, isSuccessStatus (statuses i) = true) :
    ∀ fuel i, bitbucketLoop statuses i fuel = .outOfFuel := by
  intro fuel
  induction fuel with
  | zero => intro i; rfl
  | succ n ih =>
    intro i
    simp only [bitbucketLoop, h i, if_true]
    exact ih (i + 1)

/-- C2 witness: with every request answered 200, five iterations of the
loop end with the fuel exhausted rather than a result. -/
theorem c2_witness : bitbucketLoop (fun _ => 200) 0 5 = .outOfFuel :=
  c2_bitbucket_loop_never_returns (fun _ => 200) (fun _ => rfl) 5 0

/-- C5: the command strings `sync_repository` hands to the shell are
independent of the username and the secret — changing both credentials
changes neither command line — and the credentials reach Git only as the
`GIT_USER`/`GIT_PASSWORD` environment entries of that single
subprocess. -/
theorem c5_credentials_never_on_command_line
    (url dest u1 p1 u2 p2 : String) (f : String → Bool) :
    scriptsOf (sync_repository ⟨url, u1, p1, dest⟩ f)
      = scriptsOf (sync_repository ⟨url, u2, p2, dest⟩ f)
    ∧ scriptsOf (sync_repository ⟨url, u1, p1, dest⟩ f)
      = [if f (headPath dest) then git_fetch_cmd else git_clone_cmd url]
    ∧ envsOf (sync_repository ⟨url, u1, p1, dest⟩ f)
      = [[("GIT_USER", u1), ("GIT_PASSWORD", p1)]] := by
  refine ⟨?_, ?_, ?_⟩ <;> simp [sync_repository, scriptsOf, envsOf]

/-- C6: `sync_repository` first creates the destination folder (with any
missing parents), then performs a full bare clone exactly when the
`HEAD` marker file is absent from the destination, and otherwise runs
the incremental fetch (all refs, pruning upstream-deleted refs and
unreachable tags) in the existing bare repository. -/
theorem c6_clone_iff_marker_absent (o : GitOpts) (f : String → Bool) :
    (sync_repository o f).head? = some (.createDirAll o.destination)
    ∧ (f (headPath o.destination) = false →
        sync_repository o f =
          [ .createDirAll o.destination,
            .runShell
              { script := git_clone_cmd o.repo_url,
                env := [("GIT_USER", o.username), ("GIT_PASSWORD", o.password)],
                cwd := o.destination } ])
    ∧ (f (headPath o.destination) = true →
        sync_repository o f =
          [ .createDirAll o.destination,
            .runShell
              { script := git_fetch_cmd,
                env := [("GIT_USER", o.username), ("GIT_PASSWORD", o.password)],
                cwd := o.destination } ]) := by
  refine ⟨rfl, fun h => ?_, fun h => ?_⟩ <;> simp [sync_repository, h]

/-- C6 witness: with no `HEAD` marker anywhere, syncing performs the
folder creation followed by the bare clone of the given URL. -/
theorem c6_witness :
    sync_repository ⟨"https://github.com/jsdw/git-backup", "jsdw", "tok", "/backups/git-backup.git"⟩
        (fun _ => false)
      = [ .createDirAll "/backups/git-backup.git",
          .runShell
            { script := git_clone_cmd "https://github.com/jsdw/git-backup",
              env := [("GIT_USER", "jsdw"), ("GIT_PASSWORD", "tok")],
              cwd := "/backups/git-backup.git" } ] :=
  (c6_clone_iff_marker_absent
    ⟨"https://github.com/jsdw/git-backup", "jsdw", "tok", "/backups/git-backup.git"⟩
    (fun _ => false)).2.1 rfl

/-- C7 counterexample: the claim says every provider client maps an
auth-rejection status to an authentication-specific error. The GitHub
repositories client does not: its 401 error is the same generic
non-success error it produces for any other status. -/
theorem c7_counterexample :
    isSuccessStatus 401 = false
    ∧ (githubStatusError 401).isAuth = false
    ∧ githubStatusError 401 = ProviderError.generic 401 :=
  ⟨rfl, rfl, rfl⟩

/-- C7 (amended): for the GitLab, Bitbucket and GitHub-Gists clients a
non-success status produces the authentication-specific remediation-hint
error exactly when it is 401, and that error differs from the error of
every other non-success status; the GitHub repositories client instead
produces the generic error for every status, 401 included. -/
theorem c7_auth_rejection_distinguished (c : Nat)
    (hc : isSuccessStatus c = false) :
    ((gitlabStatusError c).isAuth = true ↔ c = 401)
    ∧ ((bitbucketStatusError c).isAuth = true ↔ c = 401)
    ∧ ((gistsStatusError c).isAuth = true ↔ c = 401)
    ∧ (githubStatusError c).isAuth = false
    ∧ (c ≠ 401 →
        gitlabStatusError c ≠ gitlabStatusError 401
        ∧ bitbucketStatusError c ≠ bitbucketStatusError 401
        ∧ gistsStatusError c ≠ gistsStatusError 401) := by
  by_cases h : c = 401 <;>
    simp [gitlabStatusError, bitbucketStatusError, gistsStatusError,
      githubStatusError, ProviderError.isAuth, h]

/-- C7 witness: a 500 response is reported differently from a 401 by the
three clients that distinguish authentication failures. -/
theorem c7_witness :
    gitlabStatusError 500 ≠ gitlabStatusError 401
    ∧ bitbucketStatusError 500 ≠ bitbucketStatusError 401
    ∧ gistsStatusError 500 ≠ gistsStatusError 401 :=
  (c7_auth_rejection_distinguished 500 (by decide)).2.2.2.2 (by decide)

/-- Documented GitHub URL variants naming the owner `jsdw` and the
repository `git.backup`: scheme present or absent, `www.` present or
absent, `.com` present or entirely absent, `.git` suffix or trailing
slash present or absent, HTTP(S), SSH-colon and bare-`user@host` forms,
with both `/` and `:` as owner/repo separators. -/
def githubOwnerRepoVariants : List String :=
  [ "http://www.github.com/jsdw/git.backup",
    "http://www.github.com/jsdw/git.backup.git",
    "http://github.com/jsdw/git.backup",
    "http://github.com/jsdw/git.backup.git",
    "https://github.com/jsdw/git.backup",
    "https://github.com/jsdw/git.backup.git",
    "https://github/jsdw/git.backup",
    "github.com/jsdw/git.backup",
    "github.com/jsdw/git.backup.git",
    "github.com/jsdw/git.backup/",
    "github/jsdw/git.backup",
    "git@github.com:jsdw/git.backup",
    "git@github.com:jsdw/git.backup.git",
    "github.com:jsdw/git.backup",
    "github.com:jsdw/git.backup.git",
    "github:jsdw/git.backup",
    "jsdw@github.com/git.backup",
    "jsdw@github/git.backup",
    "jsdw@github.com/git.backup.git",
    "jsdw@github.com:git.backup",
    "jsdw@github.com:git.backup.git" ]

/-- Documented GitHub URL variants naming only the owner `jsdw`. -/
def githubOwnerVariants : List String :=
  [ "http://www.github.com/jsdw",
    "http://github.com/jsdw",
    "https://github.com/jsdw",
    "https://github/jsdw",
    "github.com/jsdw",
    "github.com/jsdw/",
    "github/jsdw",
    "git@github.com:jsdw",
    "github.com:jsdw",
    "github:jsdw",
    "jsdw@github.com",
    "jsdw@github" ]

/-- Documented GitLab URL variants with owner and repository. -/
def gitlabOwnerRepoVariants : List String :=
  [ "http://www.gitlab.org/jsdw/git.backup",
    "http://www.gitlab.org/jsdw/git.backup.git",
    "http://gitlab.org/jsdw/git.backup",
    "http://gitlab.org/jsdw/git.backup.git",
    "https://gitlab.org/jsdw/git.backup",
    "https://gitlab.org/jsdw/git.backup.git",
    "https://gitlab/jsdw/git.backup",
    "gitlab.org/jsdw/git.backup",
    "gitlab.org/jsdw/git.backup.git",
    "gitlab.org/jsdw/git.backup/",
    "gitlab/jsdw/git.backup",
    "git@gitlab.org:jsdw/git.backup",
    "git@gitlab.org:jsdw/git.backup.git",
    "gitlab.org:jsdw/git.backup",
    "gitlab.org:jsdw/git.backup.git",
    "gitlab:jsdw/git.backup",
    "jsdw@gitlab.org/git.backup",
    "jsdw@gitlab/git.backup",
    "jsdw@gitlab.org/git.backup.git",
    "jsdw@gitlab.org:git.backup",
    "jsdw@gitlab.org:git.backup.git" ]

/-- Documented GitLab URL variants naming only the owner. -/
def gitlabOwnerVariants : List String :=
  [ "http://www.gitlab.org/jsdw",
    "http://gitlab.org/jsdw",
    "https://gitlab.org/jsdw",
    "https://gitlab/jsdw",
    "gitlab.org/jsdw",
    "gitlab.org/jsdw/",
    "gitlab/jsdw",
    "git@gitlab.org:jsdw",
    "gitlab.org:jsdw",
    "gitlab:jsdw",
    "jsdw@gitlab.org",
    "jsdw@gitlab" ]

/-- Documented Bitbucket URL variants with owner and repository. -/
def bitbucketOwnerRepoVariants : List String :=
  [ "http://www.bitbucket.org/jsdw/git.backup",
    "http://www.bitbucket.org/jsdw/git.backup.git",
    "http://bitbucket.org/jsdw/git.backup",
    "http://bitbucket.org/jsdw/git.backup.git",
    "https://bitbucket.org/jsdw/git.backup",
    "https://bitbucket.org/jsdw/git.backup.git",
    "https://bitbucket/jsdw/git.backup",
    "bitbucket.org/jsdw/git.backup",
    "bitbucket.org/jsdw/git.backup.git",
    "bitbucket.org/jsdw/git.backup/",
    "bitbucket/jsdw/git.backup",
    "git@bitbucket.org:jsdw/git.backup",
    "git@bitbucket.org:jsdw/git.backup.git",
    "bitbucket.org:jsdw/git.backup",
    "bitbucket.org:jsdw/git.backup.git",
    "bitbucket:jsdw/git.backup",
    "jsdw@bitbucket.org/git.backup",
    "jsdw@bitbucket/git.backup",
    "jsdw@bitbucket.org/git.backup.git",
    "jsdw@bitbucket.org:git.backup",
    "jsdw@bitbucket.org:git.backup.git" ]

/-- Documented Bitbucket URL variants naming only the owner. -/
def bitbucketOwnerVariants : List String :=
  [ "http://www.bitbucket.org/jsdw",
    "http://bitbucket.org/jsdw",
    "https://bitbucket.org/jsdw",
    "https://bitbucket/jsdw",
    "bitbucket.org/jsdw",
    "bitbucket.org/jsdw/",
    "bitbucket/jsdw",
    "git@bitbucket.org:jsdw",
    "bitbucket.org:jsdw",
    "bitbucket:jsdw",
    "jsdw@bitbucket.org",
    "jsdw@bitbucket" ]

/-- Documented GitHub-Gists URL variants (gists only ever name the
owner). -/
def gistsOwnerVariants : List String :=
  [ "http://gist.github.com/jsdw",
    "http://gists.github.com/jsdw",
    "https://gist.github.com/jsdw",
    "https://gists.github.com/jsdw",
    "https://gist.github/jsdw",
    "https://gists.github/jsdw",
    "gist.github.com/jsdw",
    "gist.github/jsdw",
    "gist.github.com/jsdw/",
    "git@gist.github.com:jsdw",
    "gist.github.com:jsdw",
    "gist.github:jsdw",
    "jsdw@gist.github.com",
    "jsdw@gist.github" ]

/-- C8: for every supported provider, each documented URL-grammar
variant of the same location is accepted by that provider's identifier
and resolves to the same (owner, repository) pair — so to the same
(provider, owner, repository) triple. -/
theorem c8_url_grammar_variants_agree :
    (githubOwnerRepoVariants.all
      (fun u => Github.identify u == some ("jsdw", some "git.backup"))) = true
    ∧ (githubOwnerVariants.all
      (fun u => Github.identify u == some ("jsdw", none))) = true
    ∧ (gitlabOwnerRepoVariants.all
      (fun u => GitLab.identify u == some ("jsdw", some "git.backup"))) = true
    ∧ (gitlabOwnerVariants.all
      (fun u => GitLab.identify u == some ("jsdw", none))) = true
    ∧ (bitbucketOwnerRepoVariants.all
      (fun u => Bitbucket.identify u == some ("jsdw", some "git.backup"))) = true
    ∧ (bitbucketOwnerVariants.all
      (fun u => Bitbucket.identify u == some ("jsdw", none))) = true
    ∧ (gistsOwnerVariants.all
      (fun u => GitHubGists.identify u == some "jsdw")) = true :=
  ⟨rfl, rfl, rfl, rfl, rfl, rfl, rfl⟩

/-- A list does not contain an element exactly when nothing in it equals
it. -/
theorem contains_eq_false_iff (l : List String) (a : String) :
    l.contains a = false ↔ ∀ x ∈ l, x ≠ a := by
  constructor
  · intro h x hx hxa
    subst hxa
    simp at h
    exact h hx
  · intro h
    by_contra hc
    have ht : l.contains a = true := by
      cases hcl : l.contains a
      · exact absurd hcl hc
      · rfl
    have ha : a ∈ l := by simpa using ht
    exact h a ha rfl

/-- Characterization of one prune-loop iteration: an entry produces the
removal of `nm` exactly when it is a readable directory whose UTF-8 name
is `nm`, `nm` has the `.git` suffix, and `nm` is not kept. -/
theorem pruneStep_eq_some (keep : List String) (e : DirEntry) (nm : String) :
    pruneStep keep e = some nm ↔
      e.readable = true ∧ e.is_dir = true ∧ e.utf8_name = some nm
        ∧ nm.endsWith ".git" = true ∧ keep.contains nm = false := by
  rcases e with ⟨r, d, n⟩
  unfold pruneStep
  simp only
  cases r with
  | false => simp
  | true =>
    cases d with
    | false => simp
    | true =>
      cases n with
      | none => simp
      | some s =>
        simp only [Option.some.injEq]
        constructor
        · intro h
          generalize hg : s.endsWith ".git" = b at h
          cases b with
          | false => simp at h
          | true =>
            generalize hk : keep.contains s = c at h
            cases c with
            | true => simp at h
            | false =>
              simp at h
              subst h
              exact ⟨trivial, trivial, rfl, hg, hk⟩
        · rintro ⟨-, -, hs, hg, hk⟩
          subst hs
          rw [hg, hk]
          simp

/-- C4: the prune pass decides to remove a name exactly when some entry
of the destination directory is a readable directory with that UTF-8
name, the name ends in the `.git` mirror suffix, and it is not among the
folder names derived from the currently listed repositories; hence a
folder matching a currently listed repository is never removed, and
unreadable, non-directory or non-UTF-8 entries never influence the
outcome (they are skipped without failing the pass). -/
theorem c4_prune_mirror_folders_only
    (repos : List Repository) (entries : List DirEntry) (nm : String) :
    (nm ∈ pruneTargets (keepFolders repos) entries ↔
      ∃ e ∈ entries, e.readable = true ∧ e.is_dir = true
        ∧ e.utf8_name = some nm ∧ nm.endsWith ".git" = true
        ∧ ∀ r ∈ repos, repo_name_to_folder r.name ≠ nm)
    ∧ (∀ r ∈ repos,
        repo_name_to_folder r.name ∉ pruneTargets (keepFolders repos) entries)
    ∧ (∀ (e : DirEntry),
        e.readable = false ∨ e.is_dir = false ∨ e.utf8_name = none →
        ∀ pre post,
          pruneTargets (keepFolders repos) (pre ++ e :: post)
            = pruneTargets (keepFolders repos) (pre ++ post)) := by
  have hmem : ∀ nm2 : String,
      nm2 ∈ pruneTargets (keepFolders repos) entries ↔
      ∃ e ∈ entries, pruneStep (keepFolders repos) e = some nm2 := by
    intro nm2
    simp [pruneTargets, List.mem_filterMap]
  have hkeep : ∀ nm2 : String,
      (keepFolders repos).contains nm2 = false ↔
      ∀ r ∈ repos, repo_name_to_folder r.name ≠ nm2 := by
    intro nm2
    rw [contains_eq_false_iff]
    constructor
    · intro h r hr
      exact h (repo_name_to_folder r.name) (List.mem_map_of_mem _ hr)
    · intro h x hx
      obtain ⟨r, hr, hxr⟩ := List.mem_map.mp hx
      subst hxr
      exact h r hr
  refine ⟨?_, ?_, ?_⟩
  · rw [hmem]
    constructor
    · rintro ⟨e, he, hstep⟩
      obtain ⟨h1, h2, h3, h4, h5⟩ := (pruneStep_eq_some _ e nm).mp hstep
      exact ⟨e, he, h1, h2, h3, h4, (hkeep nm).mp h5⟩
    · rintro ⟨e, he, h1, h2, h3, h4, h5⟩
      exact ⟨e, he, (pruneStep_eq_some _ e nm).mpr
        ⟨h1, h2, h3, h4, (hkeep nm).mpr h5⟩⟩
  · intro r hr hin
    obtain ⟨e, _, hstep⟩ := (hmem _).mp hin
    obtain ⟨-, -, -, -, h5⟩ := (pruneStep_eq_some _ e _).mp hstep
    have : ∀ x ∈ repos, repo_name_to_folder x.name ≠ repo_name_to_folder r.name :=
      (hkeep _).mp h5
    exact this r hr rfl
  · intro e he pre post
    have hnone : pruneStep (keepFolders repos) e = none := by
      rcases e with ⟨r, d, n⟩
      rcases he with h | h | h <;> simp at h <;> subst h
      · rfl
      · cases r with
        | false => rfl
        | true => rfl
      · cases r with
        | false => rfl
        | true =>
          cases d with
          | false => rfl
          | true => rfl
    simp [pruneTargets, List.filterMap_append, List.filterMap_cons, hnone]

/-- C4 witness: with only `keep` listed, a readable `a.git` directory is
pruned while an unreadable `b.git` entry is skipped without affecting
the outcome. -/
theorem c4_witness :
    pruneTargets (keepFolders [⟨"u", "keep"⟩])
        ([⟨true, true, some "a.git"⟩] ++ ⟨false, true, some "b.git"⟩ ::
          [⟨true, true, some "keep.git"⟩])
      = pruneTargets (keepFolders [⟨"u", "keep"⟩])
          ([⟨true, true, some "a.git"⟩] ++ [⟨true, true, some "keep.git"⟩]) :=
  (c4_prune_mirror_folders_only [⟨"u", "keep"⟩]
      [⟨true, true, some "a.git"⟩] "a.git").2.2
    ⟨false, true, some "b.git"⟩ (Or.inl rfl)
    [⟨true, true, some "a.git"⟩] [⟨true, true, some "keep.git"⟩]

/-- C9: with dry-run enabled the run performs zero filesystem mutation —
no folder creation, no Git subprocess, no directory removal — while its
decision log (which repositories it would sync, which folders it would
prune) is identical to that of the same run with dry-run disabled, over
the same filesystem view. -/
theorem c9_dry_run_mutates_nothing (prune : Bool) (dest username token : String)
    (is_file : String → Bool) (repos : List Repository)
    (entries : List DirEntry) :
    (runBackup true prune dest username token is_file repos entries).1 = []
    ∧ (runBackup true prune dest username token is_file repos entries).2
      = (runBackup false prune dest username token is_file repos entries).2 := by
  cases prune <;>
    simp [runBackup, syncPhase, prunePhase]

/-- The pagination loop consumes exactly the pages up to and including
the first end-marked one, appending their items in page order. -/
theorem collectPages_exact (p : Page) (extra : List Page) :
    ∀ ps : List Page, (∀ q ∈ ps, q.endCursor.isSome = true) →
      p.endCursor = none →
      collectPages (ps ++ p :: extra) = concatItems (ps ++ [p]) := by
  intro ps
  induction ps with
  | nil =>
    intro _ hp
    simp [collectPages, concatItems, hp]
  | cons q ps ih =>
    intro hps hp
    obtain ⟨c, hc⟩ := Option.isSome_iff_exists.mp (hps q (by simp))
    have hrest : ∀ x ∈ ps, x.endCursor.isSome = true := by
      intro x hx
      exact hps x (by simp [hx])
    simp only [List.cons_append, collectPages, hc, concatItems, List.foldr_cons,
      List.append_eq]
    rw [ih hrest hp]
    simp [concatItems]

/-- The requests the loop issues carry, in order: the initial cursor and
then each previous page's cursor; nothing is sent past the end-marked
page. -/
theorem cursorsSentFrom_exact (p : Page) (extra : List Page) :
    ∀ (ps : List Page) (cur : Option String),
      (∀ q ∈ ps, q.endCursor.isSome = true) →
      p.endCursor = none →
      cursorsSentFrom cur (ps ++ p :: extra)
        = cur :: ps.map (fun q => q.endCursor) := by
  intro ps
  induction ps with
  | nil =>
    intro cur _ hp
    simp [cursorsSentFrom, hp]
  | cons q ps ih =>
    intro cur hps hp
    obtain ⟨c, hc⟩ := Option.isSome_iff_exists.mp (hps q (by simp))
    have hrest : ∀ x ∈ ps, x.endCursor.isSome = true := by
      intro x hx
      exact hps x (by simp [hx])
    simp only [List.cons_append, cursorsSentFrom, hc, List.map_cons,
      List.append_eq]
    rw [ih (some c) hrest hp]

/-- C3 counterexample: the claim says `list_repositories` returns
exactly the concatenation of the pages' decoded items. For the gists
client this fails when two pages carry the same gist name: the returned
list has the second name rewritten to `a 2`, so it is not the
concatenation. -/
theorem c3_counterexample :
    gistsListRepositories
        [⟨[⟨"u1", "a"⟩], some "c"⟩, ⟨[⟨"u2", "a"⟩], none⟩]
      ≠ concatItems [⟨[⟨"u1", "a"⟩], some "c"⟩, ⟨[⟨"u2", "a"⟩], none⟩] := by
  decide

/-- C3 (amended): over any well-formed response run (every page before
the end-marked one carries a cursor), the GitHub repositories client
returns exactly the concatenation of all pages' decoded items in page
order — no duplicates, no dropped final page; the gists client returns
that same concatenation after its name-disambiguation pass; and the
requests issued carry the current cursor, starting from the empty one,
stopping exactly at the end-of-data marker (pages after it are never
requested). -/
theorem c3_cursor_pagination_exact (ps : List Page) (p : Page)
    (extra : List Page) (hps : ∀ q ∈ ps, q.endCursor.isSome = true)
    (hp : p.endCursor = none) :
    githubListRepositories (ps ++ p :: extra) = concatItems (ps ++ [p])
    ∧ gistsListRepositories (ps ++ p :: extra)
      = disambiguate (concatItems (ps ++ [p]))
    ∧ cursorsSentFrom none (ps ++ p :: extra)
      = none :: ps.map (fun q => q.endCursor) := by
  refine ⟨collectPages_exact p extra ps hps hp, ?_,
    cursorsSentFrom_exact p extra ps none hps hp⟩
  unfold gistsListRepositories
  rw [collectPages_exact p extra ps hps hp]

/-- C3 witness: two pages, the second end-marked, yield exactly the
two items in order, and the two requests carry the empty cursor then the
first page's cursor. -/
theorem c3_witness :
    githubListRepositories [⟨[⟨"u1", "a"⟩], some "c"⟩, ⟨[⟨"u2", "b"⟩], none⟩]
      = concatItems [⟨[⟨"u1", "a"⟩], some "c"⟩, ⟨[⟨"u2", "b"⟩], none⟩]
    ∧ gistsListRepositories [⟨[⟨"u1", "a"⟩], some "c"⟩, ⟨[⟨"u2", "b"⟩], none⟩]
      = disambiguate (concatItems [⟨[⟨"u1", "a"⟩], some "c"⟩, ⟨[⟨"u2", "b"⟩], none⟩])
    ∧ cursorsSentFrom none [⟨[⟨"u1", "a"⟩], some "c"⟩, ⟨[⟨"u2", "b"⟩], none⟩]
      = none :: [(⟨[⟨"u1", "a"⟩], some "c"⟩ : Page)].map (fun q => q.endCursor) :=
  c3_cursor_pagination_exact [⟨[⟨"u1", "a"⟩], some "c"⟩] ⟨[⟨"u2", "b"⟩], none⟩ []
    (by decide) rfl

/-- Looking a key up after recording a count: the recorded value for
that key, the previous state's value for any other. -/
theorem lookupCount_setCount (m : List (String × Nat)) (k k2 : String) (n : Nat) :
    lookupCount (setCount m k n) k2 = if k = k2 then n else lookupCount m k2 := by
  by_cases h : k = k2
  · subst h
    simp [lookupCount, setCount, List.find?]
  · have hb : (k == k2) = false := by
      simp [h]
    simp [lookupCount, setCount, List.find?, hb, h]

/-- Positional characterization of the disambiguation walk: the element
at position `i` keeps its name when its original name has not been seen
before (in the state nor in the prefix), and otherwise gets the
occurrence count appended. -/
theorem disambigGo_getElem (rs : List Repository) :
    ∀ (m : List (String × Nat)) (i : Nat) (r : Repository),
      rs[i]? = some r →
      (disambigGo m rs)[i]? = some (
        if lookupCount m r.name + ((rs.take i).map (fun x => x.name)).count r.name = 0
        then r
        else renameWith r (lookupCount m r.name
          + ((rs.take i).map (fun x => x.name)).count r.name + 1)) := by
  induction rs with
  | nil =>
    intro m i r h
    simp at h
  | cons a rs ih =>
    intro m i r h
    cases i with
    | zero =>
      simp only [List.getElem?_cons_zero, Option.some.injEq] at h
      subst h
      simp only [disambigGo, List.getElem?_cons_zero, Option.some.injEq,
        List.take_zero, List.map_nil, List.count_nil, Nat.add_zero]
      by_cases h1 : lookupCount m a.name = 0
      · simp [h1]
      · have h2 : ¬ (lookupCount m a.name + 1 = 1) := by omega
        simp [h1, h2]
    | succ i =>
      simp only [List.getElem?_cons_succ] at h
      simp only [disambigGo, List.getElem?_cons_succ]
      rw [ih (setCount m a.name (lookupCount m a.name + 1)) i r h]
      have hcount : (((a :: rs).take (i + 1)).map (fun x => x.name)).count r.name
          = (if a.name = r.name then 1 else 0)
            + ((rs.take i).map (fun x => x.name)).count r.name := by
        simp only [List.take_succ_cons, List.map_cons, List.count_cons]
        by_cases hn : a.name = r.name
        · simp [hn]
          omega
        · have hb : (r.name == a.name) = false := by
            simp
            exact fun he => hn he.symm
          simp [hn, hb]
      rw [hcount, lookupCount_setCount]
      by_cases hn : a.name = r.name
      · simp only [hn, eq_self_iff_true, if_true]
        have e1 : lookupCount m r.name + 1
            + ((rs.take i).map (fun x => x.name)).count r.name
            = lookupCount m r.name
              + (1 + ((rs.take i).map (fun x => x.name)).count r.name) := by
          omega
        rw [e1]
      · simp [hn]

/-- C10: the disambiguation pass renames exactly the 2nd and later
occurrences of an original name, appending the occurrence count — so
numbering is per original name, not globally unique: on the creation-
ordered input names `a 2`, `a`, `a` the returned names are
`a 2`, `a`, `a 2`, containing the final name `a 2` twice (and hence the
same derived mirror folder twice). -/
theorem c10_gist_names_numbered_not_unique :
    (∀ (rs : List Repository) (i : Nat) (r : Repository),
      rs[i]? = some r →
      (disambiguate rs)[i]? = some (
        if ((rs.take i).map (fun x => x.name)).count r.name = 0
        then r
        else renameWith r (((rs.take i).map (fun x => x.name)).count r.name + 1)))
    ∧ (disambiguate [⟨"u1", "a 2"⟩, ⟨"u2", "a"⟩, ⟨"u3", "a"⟩]).map (fun x => x.name)
      = ["a 2", "a", "a 2"] := by
  constructor
  · intro rs i r h
    have hg := disambigGo_getElem rs [] i r h
    have hL : lookupCount [] r.name = 0 := rfl
    rw [hL] at hg
    simpa [disambiguate] using hg
  · decide

/-- C10 witness: in the example the third gist, originally named `a`,
is returned renamed to `a 2`, colliding with the first gist's name. -/
theorem c10_witness :
    (disambiguate [⟨"u1", "a 2"⟩, ⟨"u2", "a"⟩, ⟨"u3", "a"⟩])[2]?
      = some ⟨"u3", "a 2"⟩ := by
  have h := c10_gist_names_numbered_not_unique.1
    [⟨"u1", "a 2"⟩, ⟨"u2", "a"⟩, ⟨"u3", "a"⟩] 2 ⟨"u3", "a"⟩ rfl
  exact h.trans (by decide)
